import Mathlib

/-!
Verification of the Flow-Library document manager core.

The definitions below are a shallow embedding of the application logic in
`src/types.ts` (the single-page React application): the data model
(`Book`, `Note`, `Category`), the library coordinator handlers
(`handleFileUpload`, `deleteBook`, `executeBatchDelete`, `updateBookMetadata`,
`openBook`, `closeBook`, `onDocumentLoadSuccess`, `addCategory`,
`deleteCategory`, `saveNote`), the grouping/sorting engine (`sortBooks`,
`getGroupedBooks`), the in-document search (`handleSearch`) and the
highlight-relocation predicate (`spanMarked`).

JavaScript strings are modelled as `List Char`; `String.prototype.includes` /
`indexOf` become `indexOfSub`; the IndexedDB blob store becomes the list of
document ids currently holding a blob (`AppState.blobs`), and a fallible blob
operation is parametrised by a `String → Bool` failure oracle standing for the
store throwing on that id.  React state updates become explicit state-passing
on `AppState`.
-/

namespace FlowLibrary

/-- Source `BookStatus` from `src/types.ts`: `next | reading | paused | completed | discarded`
(what the specification calls `queued | active | paused | finished | abandoned`). -/
inductive BookStatus where
  | next
  | reading
  | paused
  | completed
  | discarded
deriving DecidableEq, Repr

/-- The `Book` record from `src/types.ts` (the binary payload itself lives in
the blob store and is tracked separately). -/
structure Book where
  id : String
  title : String
  author : String
  uploadDate : Nat
  totalPages : Nat
  currentPage : Nat
  status : Option BookStatus
  category : Option String
  rating : Option Nat
deriving DecidableEq, Repr

/-- The `Note` record from `src/types.ts`.  `highlight` is stored as the raw
selection string (the source always writes the `highlight` property, possibly
with the empty selection). -/
structure Note where
  id : String
  bookId : String
  pageNumber : Nat
  text : String
  highlight : String
  createdAt : Nat
deriving DecidableEq, Repr

/-- The `Category` record from `src/types.ts`. -/
structure Category where
  id : String
  name : String
deriving DecidableEq, Repr

/-- Source `GroupingMode` from `src/types.ts`. -/
inductive GroupingMode where
  | none
  | category
  | status
  | rating
deriving DecidableEq, Repr

/-- Source `SortMode` from `src/types.ts`. -/
inductive SortMode where
  | recent
  | rating
  | progress
  | pages
  | completed
deriving DecidableEq, Repr

/-- The application state relevant to the coordinator handlers in `App`:
the three metadata collections, the set of ids with a stored blob
(IndexedDB via `saveBookData` / `deleteBookData`), and the reader state
(`currentBook`, `pageNumber`, `numPages`). -/
structure AppState where
  books : List Book
  notes : List Note
  categories : List Category
  blobs : List String
  currentBook : Option Book
  pageNumber : Nat
  numPages : Nat
deriving DecidableEq, Repr

/-! ### Text utilities (JS string operations on `List Char`) -/

/-- Source `toLowerCase`, character by character. -/
def lowerL (l : List Char) : List Char := l.map Char.toLower

/-- Decidable check that the first list is a leading segment of the second
(`String.prototype.startsWith` at one position; building block of `indexOf`). -/
def isPrefixL : List Char → List Char → Bool
  | [], _ => true
  | _ :: _, [] => false
  | a :: as, b :: bs => a == b && isPrefixL as bs

/-- Source `hay.indexOf(nd)`: the first index at which `nd` occurs in `hay`, if any. -/
def indexOfSub : List Char → List Char → Option Nat
  | [], nd => if nd.isEmpty then some 0 else none
  | hay@(_ :: t), nd =>
    if isPrefixL nd hay then some 0 else (indexOfSub t nd).map (fun i => i + 1)

/-- Source `hay.includes(nd)`. -/
def containsSub (hay nd : List Char) : Bool := (indexOfSub hay nd).isSome

/-- Source `String.prototype.trim`: drop whitespace from both ends. -/
def trimL (l : List Char) : List Char :=
  ((l.dropWhile Char.isWhitespace).reverse.dropWhile Char.isWhitespace).reverse

/-- Worker for `collapseWs`; the flag records whether the previously emitted
character came from a whitespace run (so the run contributes one space only). -/
def collapseWsAux : Bool → List Char → List Char
  | _, [] => []
  | prevWs, c :: rest =>
    if c.isWhitespace then
      if prevWs then collapseWsAux true rest else ' ' :: collapseWsAux true rest
    else c :: collapseWsAux false rest

/-- The regex replacement `replace(/\s+/g, ' ')`: every maximal whitespace run
becomes a single space. -/
def collapseWs (l : List Char) : List Char := collapseWsAux false l

/-- The `normalize` helper of the temporary-highlight effect in `App`:
`str.replace(/\s+/g, ' ').trim().toLowerCase()`. -/
def normalizeText (l : List Char) : List Char := lowerL (trimL (collapseWs l))

/-- Source `text.substring(s, e)` for `s ≤ e` within bounds, as used by the snippet
construction. -/
def substringJS (l : List Char) (s e : Nat) : List Char := (l.drop s).take (e - s)

/-- The `"..."` marker wrapped around a search snippet. -/
def ellipsis : List Char := ['.', '.', '.']

/-- Snippet construction from `handleSearch`, given the index `i` of the first
(case-folded) match: 30 characters of context on each side, clamped to the
text bounds, wrapped in ellipsis markers. -/
def snippetOf (text query : List Char) (i : Nat) : List Char :=
  ellipsis ++ substringJS text (i - 30) (min text.length (i + query.length + 30)) ++ ellipsis

/-- Per-page search step of `handleSearch`: case-fold page text and query,
look for the first occurrence, and build the snippet from the original text. -/
def pageSnippet (text query : List Char) : Option (List Char) :=
  (indexOfSub (lowerL text) (lowerL query)).map (fun i => snippetOf text query i)

/-- One entry of `searchResults` (`{page, text}` in the source). -/
structure SearchResult where
  page : Nat
  text : List Char
deriving DecidableEq, Repr

/-- The page loop of `handleSearch`: pages are visited in ascending order,
a matching page contributes exactly one snippet, and after a push that brings
the result list above 50 entries the loop breaks. -/
def searchGo (query : List Char) : List (List Char) → Nat → List SearchResult → List SearchResult
  | [], _, acc => acc
  | t :: rest, i, acc =>
    match indexOfSub (lowerL t) (lowerL query) with
    | some idx =>
      let acc2 := acc ++ [⟨i, snippetOf t query idx⟩]
      if 50 < acc2.length then acc2 else searchGo query rest (i + 1) acc2
    | none => searchGo query rest (i + 1) acc

/-- Source `handleSearch` from `App`, over the extracted per-page texts of the open
document: a whitespace-only query is a no-op, otherwise the page loop runs
from page 1. -/
def handleSearch (pages : List (List Char)) (query : List Char) : List SearchResult :=
  if (trimL query).isEmpty then [] else searchGo query pages 1 []

/-- The relocation predicate of the temporary-highlight effect: a rendered
span is marked iff, after normalization, its text (length > 3) occurs in the
target, or the target (length > 3) occurs in its text. -/
def spanMarked (targetText spanText : List Char) : Bool :=
  let target := normalizeText targetText
  let text := normalizeText spanText
  (decide (3 < text.length) && containsSub target text) ||
    (decide (3 < target.length) && containsSub text target)

/-- The set of spans the effect adds the `temporary-highlight` class to. -/
def relocationMarks (targetText : List Char) (spans : List (List Char)) : List (List Char) :=
  spans.filter (fun s => spanMarked targetText s)

/-! ### Coordinator handlers -/

/-- Source `file.name.replace('.pdf', '')`: remove the first occurrence of `nd`. -/
def replaceFirstL (hay nd : List Char) : List Char :=
  match indexOfSub hay nd with
  | some i => hay.take i ++ hay.drop (i + nd.length)
  | none => hay

/-- One input file of `handleFileUpload`: its name, whether its MIME type is
`application/pdf`, and the id `crypto.randomUUID()` will hand it. -/
structure UploadFile where
  name : String
  isPdf : Bool
  fid : String
deriving DecidableEq, Repr

/-- The fresh `Book` record built for one uploaded file: default status
`next`, rating 0, `currentPage` 1, `totalPages` 0, author `Desconhecido`. -/
def mkUploadBook (now : Nat) (f : UploadFile) : Book :=
  { id := f.fid
    title := (replaceFirstL f.name.toList (String.toList ".pdf")).asString
    author := "Desconhecido"
    uploadDate := now
    totalPages := 0
    currentPage := 1
    status := some BookStatus.next
    category := none
    rating := some 0 }

/-- The file loop of `handleFileUpload`: non-PDF inputs are skipped; for a PDF
the blob is written (`saveBookData`) and the record queued.  A throwing
`saveBookData` (modelled by `failsSave`) escapes to the surrounding catch:
the result is `none` and only the blobs written so far persist. -/
def processUploads (failsSave : String → Bool) (now : Nat) :
    List UploadFile → List String → List Book → List String × Option (List Book)
  | [], blobs, acc => (blobs, some acc)
  | f :: rest, blobs, acc =>
    if f.isPdf then
      if failsSave f.fid then (blobs, none)
      else processUploads failsSave now rest (blobs ++ [f.fid]) (acc ++ [mkUploadBook now f])
    else processUploads failsSave now rest blobs acc

/-- Source `handleFileUpload` from `App`.  On success the new records are appended to
`books` and the count is reported; when one save throws, the catch path shows a
single error toast instead (reported count `none`) and `setBooks` never runs. -/
def handleFileUpload (failsSave : String → Bool) (now : Nat) (files : List UploadFile)
    (st : AppState) : AppState × Option Nat :=
  match processUploads failsSave now files st.blobs [] with
  | (blobs2, some newBooks) =>
    ({ st with blobs := blobs2, books := st.books ++ newBooks }, some newBooks.length)
  | (blobs2, none) => ({ st with blobs := blobs2 }, none)

/-- Source `deleteBook` from `App`.  `confirmed` is the `window.confirm` answer
(the caller layer's concern); `ok` is whether `deleteBookData` succeeds.  On
success the blob, the record and the book's notes are removed (and the reader
closed if it shows this book); a throwing blob delete reaches the catch
before any metadata update, leaving the state unchanged. -/
def deleteBook (confirmed ok : Bool) (id : String) (st : AppState) : AppState :=
  if confirmed then
    if ok then
      { st with
        currentBook :=
          if (match st.currentBook with | some cb => cb.id == id | none => false)
          then none else st.currentBook
        blobs := st.blobs.filter (fun x => x != id)
        books := st.books.filter (fun b => b.id != id)
        notes := st.notes.filter (fun n => n.bookId != id) }
    else st
  else st

/-- The blob-delete loop of `executeBatchDelete`: ids are processed in order;
a throwing `deleteBookData` (per `fails`) aborts the loop, keeping the blobs
deleted so far removed.  Returns the remaining blobs and whether the whole
loop ran without throwing. -/
def runBatchBlobDeletes (fails : String → Bool) :
    List String → List String → List String × Bool
  | [], blobs => (blobs, true)
  | id :: rest, blobs =>
    if fails id then (blobs, false)
    else runBatchBlobDeletes fails rest (blobs.filter (fun x => x != id))

/-- Source `executeBatchDelete` from `App`: a no-op on an empty selection; otherwise
the blob loop runs inside one try block, and only when every blob delete
succeeded are the records and notes filtered and the collected titles
reported.  A failure anywhere reaches the catch: no metadata changes and no
titles are reported. -/
def executeBatchDelete (fails : String → Bool) (ids : List String)
    (st : AppState) : AppState × List String :=
  if ids.isEmpty then (st, [])
  else
    let names := ids.filterMap (fun id => (st.books.find? (fun b => b.id == id)).map Book.title)
    match runBatchBlobDeletes fails ids st.blobs with
    | (blobs2, true) =>
      ({ st with
          currentBook :=
            if (match st.currentBook with | some cb => ids.contains cb.id | none => false)
            then none else st.currentBook
          blobs := blobs2
          books := st.books.filter (fun b => !ids.contains b.id)
          notes := st.notes.filter (fun n => !ids.contains n.bookId) }, names)
    | (blobs2, false) => ({ st with blobs := blobs2 }, [])

/-- A `Partial<Book>` update as passed to `updateBookMetadata`: each field
either absent or supplying the new value.  The source never patches `id`. -/
structure BookPatch where
  title? : Option String := none
  author? : Option String := none
  uploadDate? : Option Nat := none
  totalPages? : Option Nat := none
  currentPage? : Option Nat := none
  status? : Option (Option BookStatus) := none
  category? : Option (Option String) := none
  rating? : Option (Option Nat) := none
deriving DecidableEq, Repr

/-- The object spread `{ ...b, ...updates }`. -/
def applyPatch (b : Book) (p : BookPatch) : Book :=
  { id := b.id
    title := p.title?.getD b.title
    author := p.author?.getD b.author
    uploadDate := p.uploadDate?.getD b.uploadDate
    totalPages := p.totalPages?.getD b.totalPages
    currentPage := p.currentPage?.getD b.currentPage
    status := p.status?.getD b.status
    category := p.category?.getD b.category
    rating := p.rating?.getD b.rating }

/-- Source `updateBookMetadata` from `App`: merge the patch into the record with the
given id (a silent no-op when no record matches) and mirror the merge into
`currentBook` when it is the same book. -/
def updateBookMetadata (id : String) (p : BookPatch) (st : AppState) : AppState :=
  { st with
    books := st.books.map (fun b => if b.id = id then applyPatch b p else b)
    currentBook :=
      match st.currentBook with
      | some cb => some (if cb.id = id then applyPatch cb p else cb)
      | none => none }

/-- Source `openBook` from `App`.  The handler first re-checks that the record is
still in `books`; `dataPresent` is whether `getBookData` finds the blob.  On a
successful open the reader state is set (target page falling back to the
book's `currentPage`, then 1) and, only when the passed book's status is
`next`, `updateBookMetadata` flips it to `reading`.  The `currentBook` mirror
of that status update is guarded by the pre-open `currentBook` closure value
but applied to the freshly set book (React functional updater). -/
def openBook (dataPresent : Bool) (b : Book) (targetPage : Nat) (st : AppState) : AppState :=
  if !(st.books.any (fun x => x.id == b.id)) then st
  else if dataPresent then
    let page := if targetPage ≠ 0 then targetPage else if b.currentPage ≠ 0 then b.currentPage else 1
    let preOpenMatches : Bool :=
      match st.currentBook with | some cb => cb.id == b.id | none => false
    let st1 := { st with currentBook := some b, pageNumber := page }
    if b.status = some BookStatus.next then
      { st1 with
        books := st1.books.map (fun x =>
          if x.id = b.id then { x with status := some BookStatus.reading } else x)
        currentBook :=
          if preOpenMatches then some { b with status := some BookStatus.reading } else some b }
    else st1
  else st

/-- Source `closeBook` from `App`: write the reader's `pageNumber` back as the open
book's `currentPage`, and overwrite `totalPages` only when the renderer
reported a positive `numPages`; then leave the reader. -/
def closeBook (st : AppState) : AppState :=
  match st.currentBook with
  | some cb =>
    { st with
      books := st.books.map (fun x =>
        if x.id = cb.id then
          { x with
            currentPage := st.pageNumber
            totalPages := if 0 < st.numPages then st.numPages else x.totalPages }
        else x)
      currentBook := none }
  | none => { st with currentBook := none }

/-- Source `onDocumentLoadSuccess` from `App`: record the reported page count in the
reader state and backfill the open book's `totalPages` only when its cached
value is 0. -/
def onDocumentLoadSuccess (n : Nat) (st : AppState) : AppState :=
  let st1 := { st with numPages := n }
  match st.currentBook with
  | some cb =>
    if cb.totalPages = 0 then
      { st1 with
        books := st1.books.map (fun x =>
          if x.id = cb.id then { x with totalPages := n } else x) }
    else st1
  | none => st1

/-- Source `saveNote` from `App`: a no-op without an open book or when both the note
body and the selection are empty; otherwise the new note is prepended. -/
def saveNote (noteId : String) (now : Nat) (noteText selection : String)
    (st : AppState) : AppState :=
  match st.currentBook with
  | none => st
  | some cb =>
    if noteText = "" ∧ selection = "" then st
    else
      { st with
        notes :=
          { id := noteId, bookId := cb.id, pageNumber := st.pageNumber
            text := noteText, highlight := selection, createdAt := now } :: st.notes }

/-- The inline note-delete handler (`setNotes(prev.filter(n.id ≠ id))`). -/
def deleteNoteById (id : String) (st : AppState) : AppState :=
  { st with notes := st.notes.filter (fun n => n.id != id) }

/-- Source `addCategory` from `App`: reject blank-after-trim names by no-op,
otherwise append the trimmed category. -/
def addCategory (newId name : String) (st : AppState) : AppState :=
  if (trimL name.toList).isEmpty then st
  else { st with categories := st.categories ++ [{ id := newId, name := (trimL name.toList).asString }] }

/-- Source `deleteCategory` from `App` (post `window.confirm`): remove the category
and clear the `category` field of every book referencing it. -/
def deleteCategory (confirmed : Bool) (id : String) (st : AppState) : AppState :=
  if confirmed then
    { st with
      categories := st.categories.filter (fun c => c.id != id)
      books := st.books.map (fun b => if b.category = some id then { b with category := none } else b) }
  else st

/-! ### Grouping/sorting engine -/

/-- Source `a.title.localeCompare(b.title)`, modelled as lexicographic string
comparison (the locale-aware order is environment-dependent; only its sign
drives the sort). -/
def localeCompare (a b : String) : Int := if a < b then -1 else if b < a then 1 else 0

/-- The comparator inside `sortBooks` for each `SortMode`. -/
def cmpBooks (sm : SortMode) (a b : Book) : Int :=
  match sm with
  | SortMode.rating => Int.ofNat (b.rating.getD 0) - Int.ofNat (a.rating.getD 0)
  | SortMode.progress => Int.ofNat b.currentPage - Int.ofNat a.currentPage
  | SortMode.pages => Int.ofNat b.totalPages - Int.ofNat a.totalPages
  | SortMode.completed =>
    let ac : Int := if a.status = some BookStatus.completed then 1 else 0
    let bc : Int := if b.status = some BookStatus.completed then 1 else 0
    if ac ≠ bc then bc - ac else localeCompare a.title b.title
  | SortMode.recent => Int.ofNat b.uploadDate - Int.ofNat a.uploadDate

/-- Source `sortBooks` from `renderLibrary`: a stable sort of a copy of the list by
the mode's comparator (JS `Array.prototype.sort` is stable). -/
def sortBooks (sm : SortMode) (l : List Book) : List Book :=
  l.mergeSort (fun a b => decide (cmpBooks sm a b ≤ 0))

/-- The Portuguese status labels used as `status` bucket names. -/
def statusLabel : BookStatus → String
  | BookStatus.next => "Próximo"
  | BookStatus.reading => "Lendo"
  | BookStatus.paused => "Pausado"
  | BookStatus.completed => "Concluído"
  | BookStatus.discarded => "Descartado"

/-- The bucket label `getGroupedBooks` computes for one book (modes other
than `none`). -/
def groupKey (gm : GroupingMode) (cats : List Category) (b : Book) : String :=
  match gm with
  | GroupingMode.none => "Todos"
  | GroupingMode.category =>
    match b.category with
    | some cid =>
      match cats.find? (fun c => c.id == cid) with
      | some c => c.name
      | Option.none => "Sem Categoria"
    | Option.none => "Sem Categoria"
  | GroupingMode.status => statusLabel (b.status.getD BookStatus.next)
  | GroupingMode.rating =>
    match b.rating with
    | some r => if r ≠ 0 then toString r ++ " Estrelas" else "Sem Avaliação"
    | Option.none => "Sem Avaliação"

/-- Source `groups[key].push(book)` on a JS object used as an ordered map: append to
the bucket if the key exists, else add a new bucket at the end. -/
def pushGroup : List (String × List Book) → String → Book → List (String × List Book)
  | [], key, b => [(key, [b])]
  | (k, bs) :: rest, key, b =>
    if k = key then (k, bs ++ [b]) :: rest else (k, bs) :: pushGroup rest key b

/-- Source `getGroupedBooks` from `renderLibrary`: mode `none` yields the single
bucket `Todos` with the sorted list; otherwise the sorted list is partitioned
into labelled buckets in first-appearance order. -/
def getGroupedBooks (gm : GroupingMode) (sm : SortMode) (cats : List Category)
    (books : List Book) : List (String × List Book) :=
  if gm = GroupingMode.none then [("Todos", sortBooks sm books)]
  else (sortBooks sm books).foldl (fun gs b => pushGroup gs (groupKey gm cats b) b) []

/-- Flattening the buckets back to one ordered list. -/
def flattenGroups (gs : List (String × List Book)) : List Book :=
  (gs.map Prod.snd).flatten

/-! ### Concrete fixtures used by witnesses and counterexamples -/

/-- A search page whose 30-character context windows are fully in-bounds:
30 filler characters, the match at offset 31, 40 trailing characters. -/
def c8text : List Char := List.replicate 31 'x' ++ String.toList "ocean" ++ List.replicate 40 'y'

/-- A queued book with a category and an annotation, for concrete runs. -/
def bookA : Book :=
  { id := "a", title := "Alpha", author := "x", uploadDate := 10, totalPages := 100
    currentPage := 5, status := some BookStatus.next, category := some "c1", rating := some 2 }

/-- A second book, already being read, without category. -/
def bookB : Book :=
  { id := "b", title := "Beta", author := "y", uploadDate := 20, totalPages := 0
    currentPage := 1, status := some BookStatus.reading, category := none, rating := some 0 }

/-- An annotation on `bookA`. -/
def noteA : Note :=
  { id := "n1", bookId := "a", pageNumber := 3, text := "hello"
    highlight := "hello world", createdAt := 30 }

/-- An annotation on `bookB`. -/
def noteB : Note :=
  { id := "n2", bookId := "b", pageNumber := 1, text := "t", highlight := "", createdAt := 31 }

/-- The category referenced by `bookA`. -/
def catC1 : Category := { id := "c1", name := "Sci-Fi" }

/-- A concrete library state: two books with blobs, two annotations, one
category, `bookA` open at page 7 with 42 rendered pages. -/
def stAB : AppState :=
  { books := [bookA, bookB], notes := [noteA, noteB], categories := [catC1]
    blobs := ["a", "b"], currentBook := some bookA, pageNumber := 7, numPages := 42 }

/-- Two PDF upload inputs, for concrete runs of `handleFileUpload`. -/
def fileX : UploadFile := { name := "x.pdf", isPdf := true, fid := "x" }

/-- A second PDF upload input. -/
def fileY : UploadFile := { name := "y.pdf", isPdf := true, fid := "y" }

/-! ### Claim statements over the state model -/

/-- Statement of claim C2 for one state and document id: a successful
`deleteBook` removes the record, the blob and every annotation of that
document (and nothing else from those stores), consistency between record
and blob presence is preserved for either outcome, and a failing blob delete
leaves the state unchanged. -/
def DeleteBookSpec (st : AppState) (id : String) : Prop :=
  (deleteBook true true id st).books = st.books.filter (fun b => b.id != id) ∧
  (deleteBook true true id st).notes = st.notes.filter (fun n => n.bookId != id) ∧
  (deleteBook true true id st).blobs = st.blobs.filter (fun x => x != id) ∧
  (deleteBook true true id st).categories = st.categories ∧
  (∀ b ∈ (deleteBook true true id st).books, b.id ≠ id) ∧
  (∀ n ∈ (deleteBook true true id st).notes, n.bookId ≠ id) ∧
  (∀ ok : Bool, (∀ b ∈ st.books, b.id ∈ st.blobs) →
    ∀ b ∈ (deleteBook true ok id st).books, b.id ∈ (deleteBook true ok id st).blobs) ∧
  deleteBook true false id st = st

/-- Statement of the (amended) claim C3 for one failure oracle, id set and
state: when every blob delete succeeds the batch removes all selected records
and annotations and reports the collected titles; when any blob delete fails
the whole batch is aborted — no record or annotation is removed and no titles
are reported. -/
def BatchDeleteSpec (fails : String → Bool) (ids : List String) (st : AppState) : Prop :=
  ((∀ id ∈ ids, fails id = false) →
    (executeBatchDelete fails ids st).1.books =
        st.books.filter (fun b => !ids.contains b.id) ∧
    (executeBatchDelete fails ids st).1.notes =
        st.notes.filter (fun n => !ids.contains n.bookId) ∧
    (executeBatchDelete fails ids st).2 =
        ids.filterMap (fun id => (st.books.find? (fun b => b.id == id)).map Book.title)) ∧
  ((∃ id ∈ ids, fails id = true) →
    (executeBatchDelete fails ids st).1.books = st.books ∧
    (executeBatchDelete fails ids st).1.notes = st.notes ∧
    (executeBatchDelete fails ids st).1.categories = st.categories ∧
    (executeBatchDelete fails ids st).2 = [])

/-- Statement of the (amended) claim C4 for one save-failure oracle, upload
timestamp, file batch and state: when every save succeeds each valid (PDF)
file is appended as a record with the default fields and the count reported;
when any save throws the whole batch is aborted — no record is appended and
no count is reported. -/
def UploadBatchSpec (failsSave : String → Bool) (now : Nat) (files : List UploadFile)
    (st : AppState) : Prop :=
  ((∀ f ∈ files, f.isPdf = true → failsSave f.fid = false) →
    (handleFileUpload failsSave now files st).1.books =
        st.books ++ (files.filter (fun f => f.isPdf)).map (mkUploadBook now) ∧
    (handleFileUpload failsSave now files st).2 =
        some ((files.filter (fun f => f.isPdf)).length) ∧
    (∀ f ∈ files, f.isPdf = true →
      ∃ b ∈ (handleFileUpload failsSave now files st).1.books,
        b.id = f.fid ∧ b.status = some BookStatus.next ∧ b.rating = some 0 ∧
          b.currentPage = 1 ∧ b.totalPages = 0)) ∧
  ((∃ f ∈ files, f.isPdf = true ∧ failsSave f.fid = true) →
    (handleFileUpload failsSave now files st).1.books = st.books ∧
    (handleFileUpload failsSave now files st).2 = none)

/-- Statement of claim C6 for one state and category id: deleting the
category removes it from the category list (and only it), deletes no book,
clears `category` on exactly the books referencing it, and leaves every other
field of every book (and the other stores) unchanged. -/
def DeleteCategorySpec (st : AppState) (cid : String) : Prop :=
  (deleteCategory true cid st).books.length = st.books.length ∧
  (∀ c ∈ (deleteCategory true cid st).categories, c.id ≠ cid) ∧
  (∀ c ∈ st.categories, c.id ≠ cid → c ∈ (deleteCategory true cid st).categories) ∧
  (deleteCategory true cid st).notes = st.notes ∧
  (deleteCategory true cid st).blobs = st.blobs ∧
  (∀ b ∈ (deleteCategory true cid st).books, b.category ≠ some cid) ∧
  ∀ i (h1 : i < st.books.length) (h2 : i < (deleteCategory true cid st).books.length),
    ((deleteCategory true cid st).books.get ⟨i, h2⟩).id = (st.books.get ⟨i, h1⟩).id ∧
    ((deleteCategory true cid st).books.get ⟨i, h2⟩).title = (st.books.get ⟨i, h1⟩).title ∧
    ((deleteCategory true cid st).books.get ⟨i, h2⟩).author = (st.books.get ⟨i, h1⟩).author ∧
    ((deleteCategory true cid st).books.get ⟨i, h2⟩).uploadDate =
      (st.books.get ⟨i, h1⟩).uploadDate ∧
    ((deleteCategory true cid st).books.get ⟨i, h2⟩).totalPages =
      (st.books.get ⟨i, h1⟩).totalPages ∧
    ((deleteCategory true cid st).books.get ⟨i, h2⟩).currentPage =
      (st.books.get ⟨i, h1⟩).currentPage ∧
    ((deleteCategory true cid st).books.get ⟨i, h2⟩).status = (st.books.get ⟨i, h1⟩).status ∧
    ((deleteCategory true cid st).books.get ⟨i, h2⟩).rating = (st.books.get ⟨i, h1⟩).rating ∧
    ((deleteCategory true cid st).books.get ⟨i, h2⟩).category =
      (if (st.books.get ⟨i, h1⟩).category = some cid then none
       else (st.books.get ⟨i, h1⟩).category)

/-- Statement of claim C9 across the embedded mutating operations: opening a
`next` (queued) book flips exactly that record's status to `reading`
(active); opening a book in any other status changes no status; and none of
the other operations — close, document load, category add/delete, note
save/delete, single delete, batch delete, upload — changes the status of any
surviving record (uploads only append fresh records with default status
`next`). -/
def StatusInvariantSpec (st : AppState) (b : Book) (tp : Nat) (dp : Bool) (n : Nat)
    (cid nid cname noteId : String) (now : Nat) (txt sel : String)
    (fails : String → Bool) (ids : List String) (failsSave : String → Bool)
    (files : List UploadFile) : Prop :=
  (b ∈ st.books → b.status = some BookStatus.next →
    (openBook true b tp st).books.map Book.status =
      st.books.map (fun x => if x.id = b.id then some BookStatus.reading else x.status)) ∧
  (b.status ≠ some BookStatus.next →
    (openBook dp b tp st).books.map Book.status = st.books.map Book.status) ∧
  (closeBook st).books.map Book.status = st.books.map Book.status ∧
  (onDocumentLoadSuccess n st).books.map Book.status = st.books.map Book.status ∧
  (deleteCategory true cid st).books.map Book.status = st.books.map Book.status ∧
  (addCategory nid cname st).books = st.books ∧
  (saveNote noteId now txt sel st).books = st.books ∧
  (deleteNoteById noteId st).books = st.books ∧
  (∀ x ∈ (deleteBook true true cid st).books, x ∈ st.books) ∧
  (∀ x ∈ (executeBatchDelete fails ids st).1.books, x ∈ st.books) ∧
  ∃ nbs, (handleFileUpload failsSave now files st).1.books = st.books ++ nbs ∧
    ∀ x ∈ nbs, x.status = some BookStatus.next

/-- Statement of claim C10 for one state with open book `cb`: closing always
writes the reader page back as `currentPage` of the open book, overwrites its
`totalPages` only when the reported `numPages` is positive (so a positive
stored count is never reset to 0), touches no other record, and a successful
document load backfills `totalPages` only when the open book's cached count
is 0. -/
def CloseBookSpec (st : AppState) (cb : Book) : Prop :=
  (closeBook st).books.length = st.books.length ∧
  (∀ i (h1 : i < st.books.length) (h2 : i < (closeBook st).books.length),
    ((st.books.get ⟨i, h1⟩).id = cb.id →
      ((closeBook st).books.get ⟨i, h2⟩).currentPage = st.pageNumber ∧
      ((closeBook st).books.get ⟨i, h2⟩).totalPages =
        (if 0 < st.numPages then st.numPages else (st.books.get ⟨i, h1⟩).totalPages) ∧
      (0 < (st.books.get ⟨i, h1⟩).totalPages →
        0 < ((closeBook st).books.get ⟨i, h2⟩).totalPages)) ∧
    ((st.books.get ⟨i, h1⟩).id ≠ cb.id →
      (closeBook st).books.get ⟨i, h2⟩ = st.books.get ⟨i, h1⟩)) ∧
  ∀ n : Nat,
    (onDocumentLoadSuccess n st).numPages = n ∧
    (cb.totalPages ≠ 0 → (onDocumentLoadSuccess n st).books = st.books) ∧
    (cb.totalPages = 0 →
      ∀ i (h1 : i < st.books.length) (h2 : i < (onDocumentLoadSuccess n st).books.length),
        ((st.books.get ⟨i, h1⟩).id = cb.id →
          ((onDocumentLoadSuccess n st).books.get ⟨i, h2⟩).totalPages = n) ∧
        ((st.books.get ⟨i, h1⟩).id ≠ cb.id →
          (onDocumentLoadSuccess n st).books.get ⟨i, h2⟩ = st.books.get ⟨i, h1⟩))

/-! ### Lemmas about the string primitives -/

theorem isPrefixL_iff : ∀ (nd l : List Char), isPrefixL nd l = true ↔ nd <+: l
  | [], l => by simp [isPrefixL]
  | a :: as, [] => by simp [isPrefixL]
  | a :: as, b :: bs => by
    simp [isPrefixL, List.cons_prefix_cons, isPrefixL_iff as bs, And.comm]

theorem indexOfSub_cons (c : Char) (t nd : List Char) :
    indexOfSub (c :: t) nd =
      if isPrefixL nd (c :: t) then some 0 else (indexOfSub t nd).map (fun i => i + 1) := rfl

theorem indexOfSub_isSome_iff : ∀ (hay nd : List Char),
    (indexOfSub hay nd).isSome = true ↔ nd <:+: hay
  | [], nd => by
    cases nd <;> simp [indexOfSub, List.isEmpty]
  | c :: t, nd => by
    rw [indexOfSub_cons, List.infix_cons_iff]
    by_cases h : isPrefixL nd (c :: t) = true
    · simp [h, (isPrefixL_iff nd (c :: t)).1 h]
    · rw [if_neg h, Option.isSome_map', indexOfSub_isSome_iff t nd]
      constructor
      · exact Or.inr
      · rintro (hp | hi)
        · exact absurd ((isPrefixL_iff nd (c :: t)).2 hp) h
        · exact hi

theorem indexOfSub_first : ∀ (hay nd : List Char) (i : Nat),
    indexOfSub hay nd = some i →
    nd <+: hay.drop i ∧ ∀ j, j < i → ¬ nd <+: hay.drop j
  | [], nd, i => by
    cases nd with
    | nil =>
      intro h
      simp [indexOfSub] at h
      subst h
      simp
    | cons a as => intro h; simp [indexOfSub, List.isEmpty] at h
  | c :: t, nd, i => by
    intro h
    rw [indexOfSub_cons] at h
    by_cases hp : isPrefixL nd (c :: t) = true
    · rw [if_pos hp, Option.some_inj] at h
      subst h
      exact ⟨(isPrefixL_iff nd (c :: t)).1 hp, fun j hj => absurd hj (Nat.not_lt_zero j)⟩
    · rw [if_neg hp, Option.map_eq_some'] at h
      obtain ⟨i0, hi0, rfl⟩ := h
      obtain ⟨h1, h2⟩ := indexOfSub_first t nd i0 hi0
      refine ⟨h1, fun j hj => ?_⟩
      cases j with
      | zero =>
        intro hcon
        exact hp ((isPrefixL_iff nd (c :: t)).2 hcon)
      | succ j0 =>
        exact h2 j0 (Nat.lt_of_succ_lt_succ hj)

theorem containsSub_iff (hay nd : List Char) : containsSub hay nd = true ↔ nd <:+: hay := by
  rw [containsSub, indexOfSub_isSome_iff]

/-- Claim C7: a rendered token is marked iff, after normalization (whitespace
runs collapsed to one space, trimmed, case-folded), either the token's text
has length > 3 and occurs in the target, or the target has length > 3 and
occurs in the token's text; in particular a token of normalized length ≤ 3 is
never marked, and the effect marks exactly the spans passing the predicate. -/
theorem relocation_mark_rule :
    ∀ (targetText spanText : List Char),
      (spanMarked targetText spanText = true ↔
        ((3 < (normalizeText spanText).length ∧
            normalizeText spanText <:+: normalizeText targetText) ∨
         (3 < (normalizeText targetText).length ∧
            normalizeText targetText <:+: normalizeText spanText))) ∧
      ((normalizeText spanText).length ≤ 3 → spanMarked targetText spanText = false) ∧
      (∀ spans : List (List Char),
        spanText ∈ relocationMarks targetText spans ↔
          spanText ∈ spans ∧ spanMarked targetText spanText = true) := by
  intro targetText spanText
  have hiff : spanMarked targetText spanText = true ↔
      ((3 < (normalizeText spanText).length ∧
          normalizeText spanText <:+: normalizeText targetText) ∨
       (3 < (normalizeText targetText).length ∧
          normalizeText targetText <:+: normalizeText spanText)) := by
    simp [spanMarked, containsSub_iff]
  refine ⟨hiff, ?_, ?_⟩
  · intro hle
    cases hb : spanMarked targetText spanText with
    | false => rfl
    | true =>
      rcases hiff.1 hb with ⟨h3, _⟩ | ⟨h3, hinf⟩
      · omega
      · have := hinf.length_le
        omega
  · intro spans
    simp [relocationMarks, List.mem_filter]

/-- Concrete instance of the relocation rule: token `elephant` against target
`the elephant sat` (the spec's worked example). -/
theorem relocation_mark_rule_witness :
    (spanMarked (String.toList "the elephant sat") (String.toList "elephant") = true ↔
      ((3 < (normalizeText (String.toList "elephant")).length ∧
          normalizeText (String.toList "elephant") <:+:
            normalizeText (String.toList "the elephant sat")) ∨
       (3 < (normalizeText (String.toList "the elephant sat")).length ∧
          normalizeText (String.toList "the elephant sat") <:+:
            normalizeText (String.toList "elephant")))) ∧
    ((normalizeText (String.toList "elephant")).length ≤ 3 →
      spanMarked (String.toList "the elephant sat") (String.toList "elephant") = false) ∧
    (∀ spans : List (List Char),
      String.toList "elephant" ∈ relocationMarks (String.toList "the elephant sat") spans ↔
        String.toList "elephant" ∈ spans ∧
          spanMarked (String.toList "the elephant sat") (String.toList "elephant") = true) :=
  relocation_mark_rule (String.toList "the elephant sat") (String.toList "elephant")

/-- Claim C8: on a matching page the snippet is an ellipsis marker, the page
text from `max(0, i−30)` to `min(length, i + |query| + 30)` (where `i` is the
index of the first case-folded match), and an ellipsis marker; with 30
characters of context in-bounds on both sides the body starts with the 30
characters before the match, and otherwise the window simply shortens. -/
theorem search_snippet_window :
    ∀ (text query : List Char) (i : Nat),
      indexOfSub (lowerL text) (lowerL query) = some i →
      (pageSnippet text query =
        some (ellipsis ++
          ((text.take (min text.length (i + query.length + 30))).drop (i - 30)) ++ ellipsis)) ∧
      (lowerL query <+: (lowerL text).drop i ∧
        ∀ j, j < i → ¬ lowerL query <+: (lowerL text).drop j) ∧
      (30 ≤ i → i + query.length + 30 ≤ text.length →
        ∃ rest, pageSnippet text query =
            some (ellipsis ++ (((text.drop (i - 30)).take 30) ++ rest) ++ ellipsis) ∧
          ((text.drop (i - 30)).take 30).length = 30) := by
  intro text query i h
  have hbody : (text.take (min text.length (i + query.length + 30))).drop (i - 30) =
      (text.drop (i - 30)).take (min text.length (i + query.length + 30) - (i - 30)) :=
    List.drop_take ..
  have hfst : pageSnippet text query =
      some (ellipsis ++
        ((text.take (min text.length (i + query.length + 30))).drop (i - 30)) ++ ellipsis) := by
    rw [pageSnippet, h, Option.map_some', snippetOf, substringJS, hbody]
  refine ⟨hfst, indexOfSub_first (lowerL text) (lowerL query) i h, ?_⟩
  intro h30 hlen
  have hmin : min text.length (i + query.length + 30) = i + query.length + 30 :=
    Nat.min_eq_right hlen
  have harith : min text.length (i + query.length + 30) - (i - 30) = query.length + 60 := by
    omega
  have hlen30 : ((text.drop (i - 30)).take 30).length = 30 := by
    simp only [List.length_take, List.length_drop]
    omega
  have htake : ((text.drop (i - 30)).take (query.length + 60)).take 30 =
      (text.drop (i - 30)).take 30 := by
    rw [List.take_take, Nat.min_eq_left (by omega)]
  refine ⟨((text.drop (i - 30)).take (query.length + 60)).drop 30, ?_, hlen30⟩
  rw [hfst, hbody, harith]
  congr 2
  conv_lhs => rw [← List.take_append_drop 30 ((text.drop (i - 30)).take (query.length + 60))]
  rw [htake]

/-- Concrete instance of the snippet window theorem: query `ocean` found at
offset 31 of a 76-character page. -/
theorem search_snippet_window_witness :
    (pageSnippet c8text (String.toList "ocean") =
      some (ellipsis ++
        ((c8text.take (min c8text.length (31 + (String.toList "ocean").length + 30))).drop
          (31 - 30)) ++ ellipsis)) ∧
    (lowerL (String.toList "ocean") <+: (lowerL c8text).drop 31 ∧
      ∀ j, j < 31 → ¬ lowerL (String.toList "ocean") <+: (lowerL c8text).drop j) ∧
    (∃ rest, pageSnippet c8text (String.toList "ocean") =
        some (ellipsis ++ (((c8text.drop (31 - 30)).take 30) ++ rest) ++ ellipsis) ∧
      ((c8text.drop (31 - 30)).take 30).length = 30) := by
  have h : indexOfSub (lowerL c8text) (lowerL (String.toList "ocean")) = some 31 := by decide
  have hall := search_snippet_window c8text (String.toList "ocean") 31 h
  exact ⟨hall.1, hall.2.1, hall.2.2 (by omega) (by decide)⟩

/-- Invariant of the search page loop: starting below the cap with pages
below the current index and strictly ascending, the loop produces at most 51
results, strictly ascending by page, each either inherited or the unique
first-occurrence snippet of its page. -/
theorem searchGo_spec (query : List Char) :
    ∀ (pages : List (List Char)) (i : Nat) (acc : List SearchResult),
      acc.length ≤ 50 →
      (∀ r ∈ acc, r.page < i) →
      List.Pairwise (fun r s => r.page < s.page) acc →
      (searchGo query pages i acc).length ≤ 51 ∧
      List.Pairwise (fun r s => r.page < s.page) (searchGo query pages i acc) ∧
      ∀ r ∈ searchGo query pages i acc,
        r ∈ acc ∨ (i ≤ r.page ∧
          ∃ t0, pages[r.page - i]? = some t0 ∧ pageSnippet t0 query = some r.text) := by
  intro pages
  induction pages with
  | nil =>
    intro i acc h50 hlt hpw
    refine ⟨?_, ?_, fun r hr => Or.inl ?_⟩
    · simpa [searchGo] using Nat.le_succ_of_le h50
    · simpa [searchGo] using hpw
    · simpa [searchGo] using hr
  | cons t rest ih =>
    intro i acc h50 hlt hpw
    cases hm : indexOfSub (lowerL t) (lowerL query) with
    | none =>
      have hgo : searchGo query (t :: rest) i acc = searchGo query rest (i + 1) acc := by
        simp [searchGo, hm]
      rw [hgo]
      obtain ⟨ih1, ih2, ih3⟩ :=
        ih (i + 1) acc h50 (fun r hr => Nat.lt_succ_of_lt (hlt r hr)) hpw
      refine ⟨ih1, ih2, fun r hr => ?_⟩
      rcases ih3 r hr with hmem | ⟨hge, t0, hgt, hps⟩
      · exact Or.inl hmem
      · refine Or.inr ⟨Nat.le_of_succ_le hge, t0, ?_, hps⟩
        have hidx : r.page - i = (r.page - (i + 1)) + 1 := by omega
        rw [hidx, List.getElem?_cons_succ]
        exact hgt
    | some idx =>
      have hpw2 : List.Pairwise (fun r s => r.page < s.page)
          (acc ++ [⟨i, snippetOf t query idx⟩]) := by
        rw [List.pairwise_append]
        refine ⟨hpw, by simp, fun a ha b hb => ?_⟩
        simp only [List.mem_singleton] at hb
        subst hb
        exact hlt a ha
      have hlt2 : ∀ r ∈ acc ++ [(⟨i, snippetOf t query idx⟩ : SearchResult)], r.page < i + 1 := by
        intro r hr
        rcases List.mem_append.1 hr with hmem | hmem
        · exact Nat.lt_succ_of_lt (hlt r hmem)
        · simp only [List.mem_singleton] at hmem
          subst hmem
          exact Nat.lt_succ_self i
      have hmem2 : ∀ r ∈ acc ++ [(⟨i, snippetOf t query idx⟩ : SearchResult)],
          r ∈ acc ∨ (i ≤ r.page ∧
            ∃ t0, (t :: rest)[r.page - i]? = some t0 ∧ pageSnippet t0 query = some r.text) := by
        intro r hr
        rcases List.mem_append.1 hr with hmem | hmem
        · exact Or.inl hmem
        · simp only [List.mem_singleton] at hmem
          subst hmem
          refine Or.inr ⟨Nat.le_refl i, t, by simp, ?_⟩
          rw [pageSnippet, hm, Option.map_some']
      by_cases hbig : 50 < (acc ++ [(⟨i, snippetOf t query idx⟩ : SearchResult)]).length
      · have hbig' : 50 < acc.length + 1 := by simpa using hbig
        have hgo : searchGo query (t :: rest) i acc =
            acc ++ [⟨i, snippetOf t query idx⟩] := by
          simp [searchGo, hm, hbig']
        rw [hgo]
        refine ⟨?_, hpw2, hmem2⟩
        have : acc.length + 1 ≤ 51 := by omega
        simpa using this
      · have hbig' : ¬ 50 < acc.length + 1 := by simpa using hbig
        have hgo : searchGo query (t :: rest) i acc =
            searchGo query rest (i + 1) (acc ++ [⟨i, snippetOf t query idx⟩]) := by
          simp [searchGo, hm, hbig']
        rw [hgo]
        have h50b : (acc ++ [(⟨i, snippetOf t query idx⟩ : SearchResult)]).length ≤ 50 :=
          Nat.le_of_not_lt hbig
        obtain ⟨ih1, ih2, ih3⟩ := ih (i + 1) _ h50b hlt2 hpw2
        refine ⟨ih1, ih2, fun r hr => ?_⟩
        rcases ih3 r hr with hmem | ⟨hge, t0, hgt, hps⟩
        · exact hmem2 r hmem
        · refine Or.inr ⟨Nat.le_of_succ_le hge, t0, ?_, hps⟩
          have hidx : r.page - i = (r.page - (i + 1)) + 1 := by omega
          rw [hidx, List.getElem?_cons_succ]
          exact hgt

/-- Claim C1 (amended): `handleSearch` returns at most 51 results (the cap
check `results.length > 50` runs after the push, so a 51st match is kept),
strictly ascending by page, with at most one snippet per page, namely the
first-occurrence snippet of that page's text. -/
theorem search_results_bounded_ascending :
    ∀ (pages : List (List Char)) (query : List Char),
      (handleSearch pages query).length ≤ 51 ∧
      List.Pairwise (fun r s => r.page < s.page) (handleSearch pages query) ∧
      ∀ r ∈ handleSearch pages query,
        1 ≤ r.page ∧
          ∃ t0, pages[r.page - 1]? = some t0 ∧ pageSnippet t0 query = some r.text := by
  intro pages query
  rw [handleSearch]
  by_cases hq : (trimL query).isEmpty = true
  · simp [hq]
  · rw [if_neg hq]
    obtain ⟨h1, h2, h3⟩ := searchGo_spec query pages 1 [] (by simp) (by simp) (by simp)
    refine ⟨h1, h2, fun r hr => ?_⟩
    rcases h3 r hr with hmem | ⟨hge, t0, hgt, hps⟩
    · simp at hmem
    · exact ⟨hge, t0, hgt, hps⟩

/-- Concrete instance of the amended search bound, on a two-page document. -/
theorem search_results_bounded_ascending_witness :
    (handleSearch [String.toList "alpha", String.toList "beta"]
        (String.toList "a")).length ≤ 51 ∧
    List.Pairwise (fun r s => r.page < s.page)
      (handleSearch [String.toList "alpha", String.toList "beta"] (String.toList "a")) ∧
    ∀ r ∈ handleSearch [String.toList "alpha", String.toList "beta"] (String.toList "a"),
      1 ≤ r.page ∧
        ∃ t0, [String.toList "alpha", String.toList "beta"][r.page - 1]? = some t0 ∧
          pageSnippet t0 (String.toList "a") = some r.text :=
  search_results_bounded_ascending [String.toList "alpha", String.toList "beta"]
    (String.toList "a")

/-- Counterexample to claim C1 as stated: a 51-page document matching on
every page yields 51 results, not at most 50 (the break fires only after the
51st push). -/
theorem search_result_cap_counterexample :
    ¬ ((handleSearch (List.replicate 51 (String.toList "a"))
        (String.toList "a")).length ≤ 50) := by decide

/-- Pushing one book into the bucket map adds exactly that book to the
flattened contents. -/
theorem flatten_pushGroup :
    ∀ (gs : List (String × List Book)) (k : String) (b : Book),
      List.Perm (flattenGroups (pushGroup gs k b)) (flattenGroups gs ++ [b])
  | [], k, b => by simp [flattenGroups, pushGroup]
  | (k0, bs) :: rest, k, b => by
    by_cases h : k0 = k
    · rw [pushGroup, if_pos h]
      have e1 : flattenGroups ((k0, bs ++ [b]) :: rest) =
          bs ++ ([b] ++ flattenGroups rest) := by
        simp [flattenGroups, List.append_assoc]
      have e2 : flattenGroups ((k0, bs) :: rest) ++ [b] =
          bs ++ (flattenGroups rest ++ [b]) := by
        simp [flattenGroups, List.append_assoc]
      rw [e1, e2]
      exact List.perm_append_comm.append_left bs
    · rw [pushGroup, if_neg h]
      have ih := flatten_pushGroup rest k b
      have e1 : flattenGroups ((k0, bs) :: pushGroup rest k b) =
          bs ++ flattenGroups (pushGroup rest k b) := by
        simp [flattenGroups]
      have e2 : flattenGroups ((k0, bs) :: rest) ++ [b] =
          bs ++ (flattenGroups rest ++ [b]) := by
        simp [flattenGroups, List.append_assoc]
      rw [e1, e2]
      exact ih.append_left bs

/-- Folding the bucket-push over a book list appends exactly that list to the
flattened contents. -/
theorem flatten_foldl_pushGroup (key : Book → String) :
    ∀ (l : List Book) (gs : List (String × List Book)),
      List.Perm
        (flattenGroups (l.foldl (fun gs b => pushGroup gs (key b) b) gs))
        (flattenGroups gs ++ l)
  | [], gs => by simp
  | b :: l, gs => by
    have ih := flatten_foldl_pushGroup key l (pushGroup gs (key b) b)
    have hstep := (flatten_pushGroup gs (key b) b).append_right l
    rw [List.foldl_cons]
    refine ih.trans (hstep.trans ?_)
    rw [List.append_assoc]
    exact List.Perm.refl _

/-- Claim C5: for every document set, grouping mode and sort mode, flattening
the buckets of `getGroupedBooks` in order reproduces exactly the input set
(same size and same membership — each document lands in exactly one bucket),
and grouping mode `none` yields a single bucket containing all documents. -/
theorem arrange_roundtrip_partition :
    ∀ (gm : GroupingMode) (sm : SortMode) (cats : List Category) (books : List Book),
      List.Perm (flattenGroups (getGroupedBooks gm sm cats books)) books ∧
      (flattenGroups (getGroupedBooks gm sm cats books)).length = books.length ∧
      (∀ b : Book, b ∈ flattenGroups (getGroupedBooks gm sm cats books) ↔ b ∈ books) ∧
      ((getGroupedBooks GroupingMode.none sm cats books).length = 1 ∧
        ∀ g ∈ getGroupedBooks GroupingMode.none sm cats books, List.Perm g.2 books) := by
  intro gm sm cats books
  have hsort : List.Perm (sortBooks sm books) books := List.mergeSort_perm books _
  have hmain : List.Perm (flattenGroups (getGroupedBooks gm sm cats books)) books := by
    by_cases h : gm = GroupingMode.none
    · subst h
      rw [getGroupedBooks, if_pos rfl]
      simpa [flattenGroups] using hsort
    · rw [getGroupedBooks, if_neg h]
      have hf := flatten_foldl_pushGroup (groupKey gm cats) (sortBooks sm books) []
      simp only [flattenGroups, List.map_nil, List.flatten_nil, List.nil_append] at hf
      exact hf.trans hsort
  refine ⟨hmain, hmain.length_eq, fun b => hmain.mem_iff, ?_, ?_⟩
  · rw [getGroupedBooks, if_pos rfl]
    rfl
  · intro g hg
    rw [getGroupedBooks, if_pos rfl] at hg
    simp only [List.mem_singleton] at hg
    subst hg
    exact hsort

/-- Claim C2: for a document present in the library, a successful delete
removes its record, blob and annotations; a failing blob delete aborts the
metadata delete, leaving the state unchanged; consistency between record and
blob presence is preserved either way. -/
theorem deleteBook_cascade_atomic :
    ∀ (st : AppState) (id : String), (∃ b ∈ st.books, b.id = id) → DeleteBookSpec st id := by
  intro st id _
  refine ⟨rfl, rfl, rfl, rfl, ?_, ?_, ?_, rfl⟩
  · intro b hb
    have h := (List.mem_filter.1 hb).2
    simpa using h
  · intro n hn
    have h := (List.mem_filter.1 hn).2
    simpa using h
  · intro ok hcons b hb
    cases ok with
    | false => exact hcons b hb
    | true =>
      obtain ⟨hmem, hne⟩ := List.mem_filter.1 hb
      exact List.mem_filter.2 ⟨hcons b hmem, hne⟩

/-- Concrete instance of the delete cascade on the two-book state. -/
theorem deleteBook_cascade_atomic_witness : DeleteBookSpec stAB "a" :=
  deleteBook_cascade_atomic stAB "a" (by decide)

/-- The batch blob-delete loop succeeds exactly when no selected id fails. -/
theorem runBatchBlobDeletes_success_iff (fails : String → Bool) :
    ∀ (ids : List String) (blobs : List String),
      (runBatchBlobDeletes fails ids blobs).2 = true ↔ ∀ id ∈ ids, fails id = false
  | [], blobs => by simp [runBatchBlobDeletes]
  | id :: rest, blobs => by
    by_cases h : fails id = true
    · simp [runBatchBlobDeletes, h]
    · have hf : fails id = false := by simpa using h
      simp [runBatchBlobDeletes, hf,
        runBatchBlobDeletes_success_iff fails rest (blobs.filter (fun x => x != id))]

/-- Claim C3 (amended): a failing blob delete aborts the whole batch — no
record or annotation is removed and no titles are reported — while an
all-success run removes every selected record and annotation and reports the
collected titles. -/
theorem executeBatchDelete_abort_semantics :
    ∀ (fails : String → Bool) (ids : List String) (st : AppState),
      ids ≠ [] → BatchDeleteSpec fails ids st := by
  intro fails ids st hne
  have hisEmpty : ids.isEmpty = false := by
    cases ids with
    | nil => exact absurd rfl hne
    | cons a l => rfl
  constructor
  · intro hall
    have hsucc : (runBatchBlobDeletes fails ids st.blobs).2 = true :=
      (runBatchBlobDeletes_success_iff fails ids st.blobs).2 hall
    rcases hr : runBatchBlobDeletes fails ids st.blobs with ⟨bl2, fl⟩
    rw [hr] at hsucc
    simp only at hsucc
    subst hsucc
    simp only [executeBatchDelete, hisEmpty, Bool.false_eq_true, if_false, hr]
    exact ⟨trivial, trivial, trivial⟩
  · rintro ⟨id0, hid0, hf⟩
    have hfail : (runBatchBlobDeletes fails ids st.blobs).2 = false := by
      cases hx : (runBatchBlobDeletes fails ids st.blobs).2 with
      | false => rfl
      | true =>
        have hforall := (runBatchBlobDeletes_success_iff fails ids st.blobs).1 hx id0 hid0
        rw [hf] at hforall
        exact absurd hforall (by simp)
    rcases hr : runBatchBlobDeletes fails ids st.blobs with ⟨bl2, fl⟩
    rw [hr] at hfail
    simp only at hfail
    subst hfail
    simp only [executeBatchDelete, hisEmpty, Bool.false_eq_true, if_false, hr]
    exact ⟨trivial, trivial, trivial, trivial⟩

/-- Concrete instance of the batch-delete behaviour on the two-book state. -/
theorem executeBatchDelete_abort_semantics_witness : BatchDeleteSpec (fun _ => false) ["b"] stAB :=
  executeBatchDelete_abort_semantics (fun _ => false) ["b"] stAB (by decide)

/-- Counterexample to claim C3 as stated: with books `a` and `b` selected and
only the blob delete of `a` failing, `b` is nevertheless NOT removed (the
whole batch aborts) and no titles are reported. -/
theorem batch_delete_abort_counterexample :
    bookB ∈ (executeBatchDelete (fun id => id == "a") ["a", "b"] stAB).1.books ∧
    (executeBatchDelete (fun id => id == "a") ["a", "b"] stAB).2 = [] := by decide

/-- When every save succeeds, the upload loop appends exactly the PDF inputs
as fresh records and stores their blobs. -/
theorem processUploads_success (failsSave : String → Bool) (now : Nat) :
    ∀ (files : List UploadFile) (blobs : List String) (acc : List Book),
      (∀ f ∈ files, f.isPdf = true → failsSave f.fid = false) →
      processUploads failsSave now files blobs acc =
        (blobs ++ (files.filter (fun f => f.isPdf)).map UploadFile.fid,
         some (acc ++ (files.filter (fun f => f.isPdf)).map (mkUploadBook now)))
  | [], blobs, acc, _ => by simp [processUploads]
  | f :: rest, blobs, acc, hall => by
    by_cases hp : f.isPdf = true
    · have hf : failsSave f.fid = false := hall f (List.mem_cons_self f rest) hp
      have ih := processUploads_success failsSave now rest (blobs ++ [f.fid])
        (acc ++ [mkUploadBook now f]) (fun g hg hgp => hall g (List.mem_cons_of_mem f hg) hgp)
      simp [processUploads, hp, hf, ih, List.append_assoc]
    · have hp' : f.isPdf = false := by simpa using hp
      have ih := processUploads_success failsSave now rest blobs acc
        (fun g hg hgp => hall g (List.mem_cons_of_mem f hg) hgp)
      simp [processUploads, hp', ih]

/-- A failing save anywhere in the batch makes the upload loop abort. -/
theorem processUploads_failure (failsSave : String → Bool) (now : Nat) :
    ∀ (files : List UploadFile) (blobs : List String) (acc : List Book),
      (∃ f ∈ files, f.isPdf = true ∧ failsSave f.fid = true) →
      (processUploads failsSave now files blobs acc).2 = none
  | [], blobs, acc => by
    rintro ⟨f, hf, _⟩
    simp at hf
  | f :: rest, blobs, acc => by
    rintro ⟨g, hg, hgp, hgf⟩
    by_cases hp : f.isPdf = true
    · by_cases hff : failsSave f.fid = true
      · simp [processUploads, hp, hff]
      · have hgrest : g ∈ rest := by
          rcases List.mem_cons.1 hg with rfl | h
          · exact absurd hgf hff
          · exact h
        have ih := processUploads_failure failsSave now rest (blobs ++ [f.fid])
          (acc ++ [mkUploadBook now f]) ⟨g, hgrest, hgp, hgf⟩
        have hff' : failsSave f.fid = false := by simpa using hff
        simpa [processUploads, hp, hff'] using ih
    · have hp' : f.isPdf = false := by simpa using hp
      have hgrest : g ∈ rest := by
        rcases List.mem_cons.1 hg with rfl | h
        · exact absurd hgp hp
        · exact h
      have ih := processUploads_failure failsSave now rest blobs acc ⟨g, hgrest, hgp, hgf⟩
      simpa [processUploads, hp'] using ih

/-- Every record the upload loop emits beyond the accumulator carries the
default status `next`. -/
theorem processUploads_out_status (failsSave : String → Bool) (now : Nat) :
    ∀ (files : List UploadFile) (blobs : List String) (acc : List Book)
      (bl2 : List String) (out : List Book),
      processUploads failsSave now files blobs acc = (bl2, some out) →
      ∃ nbs, out = acc ++ nbs ∧ ∀ x ∈ nbs, x.status = some BookStatus.next
  | [], blobs, acc, bl2, out => by
    intro h
    simp [processUploads] at h
    refine ⟨[], ?_, by simp⟩
    rw [← h.2]
    simp
  | f :: rest, blobs, acc, bl2, out => by
    intro h
    by_cases hp : f.isPdf = true
    · by_cases hff : failsSave f.fid = true
      · simp [processUploads, hp, hff] at h
      · have hff' : failsSave f.fid = false := by simpa using hff
        have h2 : processUploads failsSave now rest (blobs ++ [f.fid])
            (acc ++ [mkUploadBook now f]) = (bl2, some out) := by
          simpa [processUploads, hp, hff'] using h
        obtain ⟨nbs, h3, h4⟩ :=
          processUploads_out_status failsSave now rest (blobs ++ [f.fid])
            (acc ++ [mkUploadBook now f]) bl2 out h2
        refine ⟨mkUploadBook now f :: nbs, ?_, ?_⟩
        · rw [h3, List.append_assoc]
          rfl
        · intro x hx
          rcases List.mem_cons.1 hx with rfl | hx2
          · rfl
          · exact h4 x hx2
    · have hp' : f.isPdf = false := by simpa using hp
      have h2 : processUploads failsSave now rest blobs acc = (bl2, some out) := by
        simpa [processUploads, hp'] using h
      exact processUploads_out_status failsSave now rest blobs acc bl2 out h2

/-- Claim C4 (amended): a throwing save aborts the whole upload batch — no
record is appended and no count reported — while an all-success run appends
every PDF input with the default fields and reports the count. -/
theorem upload_batch_failure_behavior :
    ∀ (failsSave : String → Bool) (now : Nat) (files : List UploadFile) (st : AppState),
      UploadBatchSpec failsSave now files st := by
  intro failsSave now files st
  constructor
  · intro hall
    have hs := processUploads_success failsSave now files st.blobs [] hall
    have e1 : (handleFileUpload failsSave now files st).1.books =
        st.books ++ (files.filter (fun f => f.isPdf)).map (mkUploadBook now) := by
      simp [handleFileUpload, hs]
    have e2 : (handleFileUpload failsSave now files st).2 =
        some ((files.filter (fun f => f.isPdf)).length) := by
      rw [handleFileUpload, hs]
      simp
    refine ⟨e1, e2, ?_⟩
    intro f hf hp
    refine ⟨mkUploadBook now f, ?_, rfl, rfl, rfl, rfl, rfl⟩
    rw [e1]
    exact List.mem_append_right _
      (List.mem_map_of_mem _ (List.mem_filter.2 ⟨hf, hp⟩))
  · rintro ⟨f, hf, hp, hff⟩
    have h2 := processUploads_failure failsSave now files st.blobs [] ⟨f, hf, hp, hff⟩
    rcases hr : processUploads failsSave now files st.blobs [] with ⟨bl2, res⟩
    rw [hr] at h2
    simp only at h2
    subst h2
    exact ⟨by rw [handleFileUpload, hr], by rw [handleFileUpload, hr]⟩

/-- Concrete instance of the upload behaviour: one PDF, no failure. -/
theorem upload_batch_failure_behavior_witness :
    UploadBatchSpec (fun _ => false) 7 [fileX] stAB :=
  upload_batch_failure_behavior (fun _ => false) 7 [fileX] stAB

/-- Counterexample to claim C4 as stated: uploading PDFs `x` and `y` where
only the save of `y` throws adds NO document (the valid file `x` is not added
and no count is reported) — the batch aborts instead of continuing. -/
theorem upload_abort_counterexample :
    ¬ (∃ b ∈ (handleFileUpload (fun s => s == "y") 5 [fileX, fileY] stAB).1.books,
        b.id = "x") ∧
    (handleFileUpload (fun s => s == "y") 5 [fileX, fileY] stAB).2 = none := by decide

/-- Claim C6: deleting a category removes it, deletes no document, clears
`category` on exactly the documents referencing it, and leaves every other
field of every document unchanged. -/
theorem deleteCategory_nullout_frame :
    ∀ (st : AppState) (cid : String), DeleteCategorySpec st cid := by
  intro st cid
  refine ⟨?_, ?_, ?_, rfl, rfl, ?_, ?_⟩
  · simp [deleteCategory]
  · intro c hc
    have h := (List.mem_filter.1 hc).2
    simpa using h
  · intro c hc hne
    exact List.mem_filter.2 ⟨hc, by simpa using hne⟩
  · intro b hb
    obtain ⟨x, hx, hexb⟩ := List.mem_map.1 hb
    subst hexb
    by_cases hc : x.category = some cid <;> simp [hc]
  · intro i h1 h2
    have hget : (deleteCategory true cid st).books.get ⟨i, h2⟩ =
        (if (st.books.get ⟨i, h1⟩).category = some cid
         then { st.books.get ⟨i, h1⟩ with category := none }
         else st.books.get ⟨i, h1⟩) := by
      simp [deleteCategory, List.get_eq_getElem, List.getElem_map]
    by_cases hc : (st.books.get ⟨i, h1⟩).category = some cid
    · rw [if_pos hc] at hget
      rw [hget, if_pos hc]
      exact ⟨rfl, rfl, rfl, rfl, rfl, rfl, rfl, rfl, rfl⟩
    · rw [if_neg hc] at hget
      rw [hget, if_neg hc]
      exact ⟨rfl, rfl, rfl, rfl, rfl, rfl, rfl, rfl, rfl⟩

/-- Concrete instance of the category null-out on the two-book state. -/
theorem deleteCategory_nullout_frame_witness : DeleteCategorySpec stAB "c1" :=
  deleteCategory_nullout_frame stAB "c1"

/-- Claim C9: opening a queued (`next`) book flips exactly that record to
`reading` (active); opening in any other status changes no status; and no
other embedded operation changes the status of any surviving record. -/
theorem status_transitions :
    ∀ (st : AppState) (b : Book) (tp : Nat) (dp : Bool) (n : Nat)
      (cid nid cname noteId : String) (now : Nat) (txt sel : String)
      (fails : String → Bool) (ids : List String) (failsSave : String → Bool)
      (files : List UploadFile),
      StatusInvariantSpec st b tp dp n cid nid cname noteId now txt sel fails ids
        failsSave files := by
  intro st b tp dp n cid nid cname noteId now txt sel fails ids failsSave files
  refine ⟨?_, ?_, ?_, ?_, ?_, ?_, ?_, ?_, ?_, ?_, ?_⟩
  · intro hb hst
    have hany : (st.books.any fun x => x.id == b.id) = true :=
      List.any_eq_true.2 ⟨b, hb, by simp⟩
    have hbooks : (openBook true b tp st).books =
        st.books.map (fun x =>
          if x.id = b.id then { x with status := some BookStatus.reading } else x) := by
      simp [openBook, hany, hst]
    rw [hbooks, List.map_map]
    apply List.map_congr_left
    intro x _
    by_cases h : x.id = b.id <;> simp [h]
  · intro hst2
    cases dp with
    | false => simp [openBook]
    | true =>
      by_cases hany : (st.books.any fun x => x.id == b.id) = true
      · have hbooks : (openBook true b tp st).books = st.books := by
          simp [openBook, hany, hst2]
        rw [hbooks]
      · have hany' : (st.books.any fun x => x.id == b.id) = false := by
          simpa using hany
        simp [openBook, hany']
  · cases hcb : st.currentBook with
    | none => simp [closeBook, hcb]
    | some cb =>
      have hbooks : (closeBook st).books =
          st.books.map (fun x =>
            if x.id = cb.id then
              { x with
                currentPage := st.pageNumber
                totalPages := if 0 < st.numPages then st.numPages else x.totalPages }
            else x) := by
        simp [closeBook, hcb]
      rw [hbooks, List.map_map]
      apply List.map_congr_left
      intro x _
      by_cases h : x.id = cb.id <;> simp [h]
  · cases hcb : st.currentBook with
    | none => simp [onDocumentLoadSuccess, hcb]
    | some cb =>
      by_cases h0 : cb.totalPages = 0
      · have hbooks : (onDocumentLoadSuccess n st).books =
            st.books.map (fun x => if x.id = cb.id then { x with totalPages := n } else x) := by
          simp [onDocumentLoadSuccess, hcb, h0]
        rw [hbooks, List.map_map]
        apply List.map_congr_left
        intro x _
        by_cases h : x.id = cb.id <;> simp [h]
      · simp [onDocumentLoadSuccess, hcb, h0]
  · have hbooks : (deleteCategory true cid st).books =
        st.books.map (fun x => if x.category = some cid then { x with category := none } else x) :=
      rfl
    rw [hbooks, List.map_map]
    apply List.map_congr_left
    intro x _
    by_cases h : x.category = some cid <;> simp [h]
  · rw [addCategory]
    split <;> rfl
  · cases hcb : st.currentBook with
    | none => simp [saveNote, hcb]
    | some cb =>
      simp only [saveNote, hcb]
      split <;> rfl
  · rfl
  · intro x hx
    exact (List.mem_filter.1 hx).1
  · intro x hx
    by_cases he : ids.isEmpty = true
    · simp only [executeBatchDelete, he, if_true] at hx
      exact hx
    · have he' : ids.isEmpty = false := by simpa using he
      rcases hr : runBatchBlobDeletes fails ids st.blobs with ⟨bl2, fl⟩
      simp only [executeBatchDelete, he', Bool.false_eq_true, if_false, hr] at hx
      cases fl with
      | true => exact (List.mem_filter.1 hx).1
      | false => exact hx
  · rcases hr : processUploads failsSave now files st.blobs [] with ⟨bl2, res⟩
    cases res with
    | none =>
      refine ⟨[], ?_, by simp⟩
      rw [handleFileUpload, hr]
      simp
    | some out =>
      obtain ⟨nbs, hout, hstat⟩ :=
        processUploads_out_status failsSave now files st.blobs [] bl2 out hr
      refine ⟨nbs, ?_, hstat⟩
      rw [handleFileUpload, hr]
      simp only [List.nil_append] at hout
      rw [hout]

/-- Concrete instance of the status-transition invariant on the two-book
state. -/
theorem status_transitions_witness :
    StatusInvariantSpec stAB bookA 1 true 42 "c1" "c9" "NewCat" "n9" 99 "body" "sel"
      (fun _ => false) ["b"] (fun _ => false) [fileX] :=
  status_transitions stAB bookA 1 true 42 "c1" "c9" "NewCat" "n9" 99 "body" "sel"
    (fun _ => false) ["b"] (fun _ => false) [fileX]

/-- Claim C10: closing writes `currentPage` back unconditionally for the open
book but overwrites `totalPages` only on a positive reported page count (a
positive stored count is never reset to 0), and a successful load backfills
`totalPages` only when the cached count is 0. -/
theorem close_writes_progress :
    ∀ (st : AppState) (cb : Book), st.currentBook = some cb → CloseBookSpec st cb := by
  intro st cb hcb
  have hbooks : (closeBook st).books =
      st.books.map (fun x =>
        if x.id = cb.id then
          { x with
            currentPage := st.pageNumber
            totalPages := if 0 < st.numPages then st.numPages else x.totalPages }
        else x) := by
    simp [closeBook, hcb]
  refine ⟨?_, ?_, ?_⟩
  · rw [hbooks]
    simp
  · intro i h1 h2
    have hget : (closeBook st).books.get ⟨i, h2⟩ =
        (if (st.books.get ⟨i, h1⟩).id = cb.id then
          { st.books.get ⟨i, h1⟩ with
            currentPage := st.pageNumber
            totalPages :=
              if 0 < st.numPages then st.numPages else (st.books.get ⟨i, h1⟩).totalPages }
         else st.books.get ⟨i, h1⟩) := by
      simp [closeBook, hcb, List.get_eq_getElem, List.getElem_map]
    constructor
    · intro hid
      rw [if_pos hid] at hget
      rw [hget]
      refine ⟨rfl, rfl, ?_⟩
      intro hpos
      by_cases hn : 0 < st.numPages
      · simp [hn]
      · simpa [hn] using hpos
    · intro hid
      rw [if_neg hid] at hget
      rw [hget]
  · intro n
    by_cases h0 : cb.totalPages = 0
    · refine ⟨?_, ?_, ?_⟩
      · simp [onDocumentLoadSuccess, hcb, h0]
      · intro hne
        exact absurd h0 hne
      · intro _ i h1 h2
        have hget : (onDocumentLoadSuccess n st).books.get ⟨i, h2⟩ =
            (if (st.books.get ⟨i, h1⟩).id = cb.id
             then { st.books.get ⟨i, h1⟩ with totalPages := n }
             else st.books.get ⟨i, h1⟩) := by
          simp [onDocumentLoadSuccess, hcb, h0, List.get_eq_getElem, List.getElem_map]
        constructor
        · intro hid
          rw [if_pos hid] at hget
          rw [hget]
        · intro hid
          rw [if_neg hid] at hget
          rw [hget]
    · refine ⟨?_, ?_, ?_⟩
      · simp [onDocumentLoadSuccess, hcb, h0]
      · intro _
        simp [onDocumentLoadSuccess, hcb, h0]
      · intro h0'
        exact absurd h0' h0

/-- Concrete instance of the close/backfill behaviour: `bookA` open at page 7
with 42 reported pages. -/
theorem close_writes_progress_witness : CloseBookSpec stAB bookA :=
  close_writes_progress stAB bookA rfl

/-- Concrete instance of the round-trip theorem, grouping two books by
category sorted by recency. -/
theorem arrange_roundtrip_partition_witness :
    List.Perm
      (flattenGroups (getGroupedBooks GroupingMode.category SortMode.recent [catC1] [bookA, bookB]))
      [bookA, bookB] ∧
    (flattenGroups
        (getGroupedBooks GroupingMode.category SortMode.recent [catC1] [bookA, bookB])).length =
      ([bookA, bookB] : List Book).length ∧
    (∀ b : Book,
      b ∈ flattenGroups
            (getGroupedBooks GroupingMode.category SortMode.recent [catC1] [bookA, bookB]) ↔
        b ∈ [bookA, bookB]) ∧
    ((getGroupedBooks GroupingMode.none SortMode.recent [catC1] [bookA, bookB]).length = 1 ∧
      ∀ g ∈ getGroupedBooks GroupingMode.none SortMode.recent [catC1] [bookA, bookB],
        List.Perm g.2 [bookA, bookB]) :=
  arrange_roundtrip_partition GroupingMode.category SortMode.recent [catC1] [bookA, bookB]

end FlowLibrary
